import Mathlib

/-!
# Verification of the blog-api authorization / comment-moderation layer

A shallow embedding of the blog API's controllers and Mongoose models.
Documents are Lean structures, the document store is a `DB` of lists, and
each Express handler becomes a pure function `DB → ... → HResult α × DB`
returning the HTTP outcome together with the successor store.

Mongoose semantics captured here:
* `Model.create` / `doc.save()` run the schema's `pre("save")` middleware
  (embedded as `postSaveHook` / comment hooks below);
* `Model.findByIdAndUpdate` applies the update document directly and does
  NOT run `pre("save")` middleware (per Mongoose, save middleware is not
  executed on update queries) — so the slug / publishedAt / readTime and
  isEdited / editedAt recomputations are skipped on those code paths;
* `arr.includes(x)` is `List.contains`, `arr.pull(x)` removes every
  occurrence (`List.filter`), `arr.push(x)` appends.
-/

namespace BlogApi

/-- Opaque document identifiers (Mongo ObjectIds). -/
abbrev Id := Nat

/-- Roles of `User.role`, schema enum ["user", "editor", "admin"]. -/
inductive Role where
  | user
  | editor
  | admin
deriving DecidableEq, Repr

/-- The authenticated caller (`req.user`): its `_id` and `role`. -/
structure UserRec where
  id : Id
  role : Role
deriving DecidableEq, Repr

/-- States of `Post.status`, schema enum ["draft", "published", "archived"]. -/
inductive PostStatus where
  | draft
  | published
  | archived
deriving DecidableEq, Repr

/-- States of `Comment.status`, schema enum ["pending", "approved", "rejected"]. -/
inductive CommentStatus where
  | pending
  | approved
  | rejected
deriving DecidableEq, Repr

/-- A `Post` document (src/models/Post.js).  Dates are modelled as `Nat`
timestamps, absent dates as `none`. -/
structure Post where
  id : Id
  title : String
  slug : String
  content : String
  author : Id
  category : Id
  tags : List Id
  status : PostStatus
  publishedAt : Option Nat
  views : Nat
  likes : List Id
  readTime : Nat
  isActive : Bool
deriving DecidableEq, Repr

/-- A `Comment` document (src/models/Comment.js). -/
structure Comment where
  id : Id
  content : String
  author : Id
  post : Id
  parentComment : Option Id
  replies : List Id
  likes : List Id
  status : CommentStatus
  isEdited : Bool
  editedAt : Option Nat
  isActive : Bool
deriving DecidableEq, Repr

/-- A `Category` document (fields relevant to the verified handlers). -/
structure Category where
  id : Id
  name : String
  isActive : Bool
deriving DecidableEq, Repr

/-- A `Tag` document (fields relevant to the verified handlers). -/
structure Tag where
  id : Id
  name : String
  isActive : Bool
deriving DecidableEq, Repr

/-- The document store: one collection per entity. -/
structure DB where
  posts : List Post
  comments : List Comment
  categories : List Category
  tags : List Tag
deriving DecidableEq, Repr

/-- Embeds `Post.findById`. -/
def findPost (db : DB) (i : Id) : Option Post :=
  db.posts.find? (fun p => p.id == i)

/-- Embeds `Comment.findById`. -/
def findComment (db : DB) (i : Id) : Option Comment :=
  db.comments.find? (fun c => c.id == i)

/-- Embeds `Category.findById`. -/
def findCategory (db : DB) (i : Id) : Option Category :=
  db.categories.find? (fun c => c.id == i)

/-- Embeds `Tag.findById`. -/
def findTag (db : DB) (i : Id) : Option Tag :=
  db.tags.find? (fun t => t.id == i)

/-- Outcome of a handler: the HTTP status code with the JSON `data`
payload on success, or the error status code. -/
inductive HResult (α : Type) where
  | ok (code : Nat) (data : α)
  | err (code : Nat)
deriving DecidableEq, Repr

/-- The HTTP status code of a handler outcome. -/
def HResult.code {α : Type} : HResult α → Nat
  | .ok c _ => c
  | .err c => c

/-! ## Schema `pre("save")` middleware -/

/-- Word count per the source: `content.split(/\s+/).length`. -/
def wordCount (s : String) : Nat :=
  (s.split Char.isWhitespace).length

/-- One alphanumeric-lowering pass: `[^a-zA-Z0-9]` becomes `-`. -/
def dashify (c : Char) : Char :=
  if c.isAlphanum then c.toLower else '-'

/-- The dash-run collapse replace of the slug logic: every maximal run of
dashes becomes a single dash. -/
def collapseDashes : List Char → List Char
  | [] => []
  | [c] => [c]
  | c :: d :: rest =>
    if c = '-' ∧ d = '-' then collapseDashes (d :: rest)
    else c :: collapseDashes (d :: rest)

/-- The trim replace of the slug logic: strip leading and trailing
dashes. -/
def trimDashes (l : List Char) : List Char :=
  ((l.dropWhile (· == '-')).reverse.dropWhile (· == '-')).reverse

/-- Slug derivation used by the Post pre-save hook (without the
`Date.now()` suffix, which is appended separately). -/
def slugify (s : String) : String :=
  String.mk (trimDashes (collapseDashes (s.toList.map dashify)))

/-- Embeds `postSchema.pre("save")`: regenerate the slug when the title was
modified, stamp `publishedAt` on the first save in `published` status, and
recompute `readTime = Math.ceil(wordCount / 200)`. -/
def postSaveHook (titleModified : Bool) (now : Nat) (p : Post) : Post :=
  let p :=
    if p.title ≠ "" ∧ titleModified then
      { p with slug := slugify p.title ++ "-" ++ toString now }
    else p
  let p :=
    if p.status = .published ∧ p.publishedAt = none then
      { p with publishedAt := some now }
    else p
  if p.content ≠ "" then
    { p with readTime := (wordCount p.content + 199) / 200 }
  else p

/-- The non-insert part of `commentSchema.pre("save")`: a content change
on an already-persisted comment stamps `isEdited` / `editedAt`.  (The
insert part — pushing the new id into the parent's `replies` — is applied
in `createComment` below, where `isNew` holds.) -/
def commentSaveHook (contentModified : Bool) (now : Nat) (c : Comment) : Comment :=
  if contentModified then { c with isEdited := true, editedAt := some now }
  else c

/-! ## Post handlers (postController) -/

/-- The update document accepted by `PUT /api/posts/:id`
(`updatePostValidation` fields; every field optional). -/
structure PostUpdateBody where
  title : Option String := none
  content : Option String := none
  category : Option Id := none
  tags : Option (List Id) := none
  status : Option PostStatus := none
deriving Repr

/-- Embeds `Post.findByIdAndUpdate(id, req.body)`: set exactly the supplied
fields.  No save middleware runs, so `slug`, `publishedAt` and `readTime`
are left untouched. -/
def applyPostUpdate (p : Post) (b : PostUpdateBody) : Post :=
  { p with
    title := b.title.getD p.title
    content := b.content.getD p.content
    category := b.category.getD p.category
    tags := b.tags.getD p.tags
    status := b.status.getD p.status }

/-- Embeds `updatePost` (PUT /api/posts/:id): 404 on a missing post, 403 unless
the caller owns the post or is admin/editor, 400 on a dangling category or
tag reference, otherwise `findByIdAndUpdate` with the body. -/
def updatePost (db : DB) (u : UserRec) (pid : Id) (b : PostUpdateBody) :
    HResult Post × DB :=
  match findPost db pid with
  | none => (.err 404, db)
  | some post =>
    if post.author ≠ u.id ∧ u.role ≠ .admin ∧ u.role ≠ .editor then
      (.err 403, db)
    else if b.category.isSome ∧ (findCategory db (b.category.getD 0)).isNone then
      (.err 400, db)
    else if (b.tags.getD []) ≠ [] ∧
        (db.tags.filter (fun t => (b.tags.getD []).contains t.id)).length
          ≠ (b.tags.getD []).length then
      (.err 400, db)
    else
      let p' := applyPostUpdate post b
      (.ok 200 p',
        { db with posts := db.posts.map (fun q => if q.id == pid then p' else q) })

/-- Embeds `deletePost` (DELETE /api/posts/:id): 404 on a missing post, 403
unless the caller owns the post or is admin, otherwise
`findByIdAndDelete`. -/
def deletePost (db : DB) (u : UserRec) (pid : Id) : HResult Unit × DB :=
  match findPost db pid with
  | none => (.err 404, db)
  | some post =>
    if post.author ≠ u.id ∧ u.role ≠ .admin then
      (.err 403, db)
    else
      (.ok 200 (), { db with posts := db.posts.eraseP (fun q => q.id == pid) })

/-- The like-toggle shared by `toggleLikePost` and `toggleLikeComment`:
`likes.includes(uid)` decides between `likes.pull(uid)` (remove every
occurrence) and `likes.push(uid)` (append). -/
def toggleLikes (likes : List Id) (uid : Id) : List Id :=
  if likes.contains uid then likes.filter (fun x => x != uid)
  else likes ++ [uid]

/-- Embeds `toggleLikePost` (PUT /api/posts/:id/like): pull the caller from
`likes` when present, push otherwise, then `post.save()` (which runs the
post pre-save hook with an unmodified title).  The response data is
`(likes.length, !isLiked)`. -/
def toggleLikePost (db : DB) (u : UserRec) (pid : Id) (now : Nat) :
    HResult (Nat × Bool) × DB :=
  match findPost db pid with
  | none => (.err 404, db)
  | some post =>
    let isLiked := post.likes.contains u.id
    let p' := postSaveHook false now { post with likes := toggleLikes post.likes u.id }
    (.ok 200 (p'.likes.length, !isLiked),
      { db with posts := db.posts.map (fun q => if q.id == pid then p' else q) })

/-! ## Comment handlers (commentController) -/

/-- The body accepted by `POST /api/posts/:postId/comments`.  The
controller spreads `req.body`, so an explicit `status` (a schema-valid
enum value) may override the `approved` default. -/
structure CreateCommentBody where
  content : String
  parentComment : Option Id := none
  status : Option CommentStatus := none
deriving Repr

/-- Embeds `createComment`: 404 unless the target post exists with
`status = "published"` and `isActive = true`; 400 when a supplied
`parentComment` does not match an active comment on the same post;
otherwise `Comment.create`, whose pre-save (isNew) hook pushes the new id
into the parent's `replies`. -/
def createComment (db : DB) (u : UserRec) (postId : Id)
    (b : CreateCommentBody) (newId : Id) : HResult Comment × DB :=
  if (db.posts.find? (fun p =>
      p.id == postId && p.status == .published && p.isActive)).isNone then
    (.err 404, db)
  else
    let c : Comment :=
      { id := newId, content := b.content, author := u.id, post := postId,
        parentComment := b.parentComment, replies := [], likes := [],
        status := b.status.getD .approved, isEdited := false,
        editedAt := none, isActive := true }
    match b.parentComment with
    | none => (.ok 201 c, { db with comments := db.comments ++ [c] })
    | some pc =>
      if (db.comments.find? (fun q =>
          q.id == pc && q.post == postId && q.isActive)).isNone then
        (.err 400, db)
      else
        (.ok 201 c,
          { db with comments :=
              (db.comments.map (fun q =>
                if q.id == pc then { q with replies := q.replies ++ [c.id] } else q))
                ++ [c] })

/-- The body accepted by `PUT /api/comments/:id`.  The controller builds
`updateData` from `content` alone, adding `status` only for admin/editor
callers — no other body key reaches the store. -/
structure UpdateCommentBody where
  content : String
  status : Option CommentStatus := none
deriving Repr

/-- Embeds `updateComment`: 404 on a missing comment, 403 unless the caller owns
the comment or is admin/editor, otherwise `findByIdAndUpdate` with
`{content}` plus, for admin/editor, the supplied `status`.  No save
middleware runs, so `isEdited` / `editedAt` are not stamped. -/
def updateComment (db : DB) (u : UserRec) (cid : Id) (b : UpdateCommentBody) :
    HResult Comment × DB :=
  match findComment db cid with
  | none => (.err 404, db)
  | some c =>
    if c.author ≠ u.id ∧ u.role ≠ .admin ∧ u.role ≠ .editor then
      (.err 403, db)
    else
      let c' :=
        { c with
          content := b.content
          status :=
            if (u.role = .admin ∨ u.role = .editor) ∧ b.status.isSome then
              b.status.getD c.status
            else c.status }
      (.ok 200 c',
        { db with comments := db.comments.map (fun q => if q.id == cid then c' else q) })

/-- Embeds `toggleLikeComment` (PUT /api/comments/:id/like): same toggle as for
posts, persisted through `comment.save()` (content unmodified, so the
comment pre-save hook stamps nothing). -/
def toggleLikeComment (db : DB) (u : UserRec) (cid : Id) (now : Nat) :
    HResult (Nat × Bool) × DB :=
  match findComment db cid with
  | none => (.err 404, db)
  | some c =>
    let isLiked := c.likes.contains u.id
    let c' := commentSaveHook false now { c with likes := toggleLikes c.likes u.id }
    (.ok 200 (c'.likes.length, !isLiked),
      { db with comments := db.comments.map (fun q => if q.id == cid then c' else q) })

/-- Embeds `moderateComment` (PUT /api/comments/:id/moderate): reject any target
status outside {"approved", "rejected"} with 400 before touching the
store; then 404 on a missing comment; otherwise assign the status and
`comment.save()` (content unmodified). -/
def moderateComment (db : DB) (cid : Id) (status : String) (now : Nat) :
    HResult Comment × DB :=
  if status ≠ "approved" ∧ status ≠ "rejected" then
    (.err 400, db)
  else
    match findComment db cid with
    | none => (.err 404, db)
    | some c =>
      let s : CommentStatus := if status == "approved" then .approved else .rejected
      let c' := commentSaveHook false now { c with status := s }
      (.ok 200 c',
        { db with comments := db.comments.map (fun q => if q.id == cid then c' else q) })

/-! ## Category / Tag delete handlers -/

/-- Embeds `deleteCategory` (DELETE /api/categories/:id): 404 on a missing
category; 400 while any post references it; otherwise
`findByIdAndDelete`. -/
def deleteCategory (db : DB) (cid : Id) : HResult Unit × DB :=
  match findCategory db cid with
  | none => (.err 404, db)
  | some cat =>
    if (db.posts.filter (fun p => p.category == cat.id)).length > 0 then
      (.err 400, db)
    else
      (.ok 200 (),
        { db with categories := db.categories.eraseP (fun c => c.id == cid) })

/-- Embeds `deleteTag` (DELETE /api/tags/:id): 404 on a missing tag; 400 while
any post references it in `tags`; otherwise `findByIdAndDelete`. -/
def deleteTag (db : DB) (tid : Id) : HResult Unit × DB :=
  match findTag db tid with
  | none => (.err 404, db)
  | some tg =>
    if (db.posts.filter (fun p => p.tags.contains tg.id)).length > 0 then
      (.err 400, db)
    else
      (.ok 200 (),
        { db with tags := db.tags.eraseP (fun t => t.id == tid) })

/-! ## Helper lemmas -/

/-- Replacing, in a list, every element whose id equals `i` by a fixed
element carrying that id commutes with looking the id up. -/
theorem find?_map_set {α : Type} (idf : α → Id) (l : List α) (i : Id) (x : α)
    (hx : idf x = i) :
    (l.map (fun q => if idf q == i then x else q)).find? (fun q => idf q == i)
      = (l.find? (fun q => idf q == i)).map (fun _ => x) := by
  induction l with
  | nil => rfl
  | cons a t ih =>
    simp only [List.map_cons]
    by_cases ha : idf a = i
    · have hab : (idf a == i) = true := by simpa using ha
      have hxb : (idf x == i) = true := by simpa using hx
      rw [if_pos hab, List.find?_cons_of_pos (p := fun q => idf q == i) _ hxb,
        List.find?_cons_of_pos (p := fun q => idf q == i) _ hab]
      rfl
    · have hab : (idf a == i) = false := by simpa using ha
      rw [if_neg (by simp [hab]), List.find?_cons_of_neg (p := fun q => idf q == i) _ (by simp [hab]),
        List.find?_cons_of_neg (p := fun q => idf q == i) _ (by simp [hab]), ih]

/-- Looking an id up never fails after the replacement if it did not fail
before, and conversely. -/
theorem find?_some_id {α : Type} (idf : α → Id) {l : List α} {i : Id} {a : α}
    (h : l.find? (fun q => idf q == i) = some a) : idf a = i := by
  have := List.find?_some h
  simpa using this

/-- The pull in `likes.filter` drops exactly `count uid` occurrences. -/
theorem length_filter_ne (l : List Id) (u : Id) :
    (l.filter (fun x => x != u)).length + l.count u = l.length := by
  induction l with
  | nil => simp
  | cons a t ih =>
    by_cases ha : a = u
    · subst ha
      simp only [List.filter_cons, List.count_cons, bne_self_eq_false,
        Bool.false_eq_true, if_false, List.length_cons, beq_self_eq_true, if_true]
      omega
    · have hb : (a != u) = true := by simpa using ha
      have hq : (a == u) = false := by simpa using ha
      simp only [List.filter_cons, List.count_cons, hb, if_true, hq,
        Bool.false_eq_true, if_false, List.length_cons]
      omega

/-- Toggling twice restores the membership set and the length whenever the
caller occurs at most once in the list (the only states the sequential
handlers produce, since a push happens only when the caller is absent). -/
theorem toggleLikes_toggleLikes (l : List Id) (u : Id) (h : l.count u ≤ 1) :
    (∀ x, x ∈ toggleLikes (toggleLikes l u) u ↔ x ∈ l) ∧
    (toggleLikes (toggleLikes l u) u).length = l.length := by
  by_cases hc : u ∈ l
  · have hfil : u ∉ l.filter (fun x => x != u) := by
      simp [List.mem_filter]
    have h1 : toggleLikes l u = l.filter (fun x => x != u) := by
      simp [toggleLikes, hc]
    have h2 : toggleLikes (toggleLikes l u) u = l.filter (fun x => x != u) ++ [u] := by
      rw [h1]; simp [toggleLikes, hfil]
    rw [h2]
    refine ⟨?_, ?_⟩
    · intro x
      simp only [List.mem_append, List.mem_filter, List.mem_singleton]
      constructor
      · rintro (⟨hx, _⟩ | rfl)
        · exact hx
        · exact hc
      · intro hx
        by_cases hxu : x = u
        · right; exact hxu
        · left; exact ⟨hx, by simpa using hxu⟩
    · have hcnt : l.count u = 1 := by
        have : 0 < l.count u := List.count_pos_iff.mpr hc
        omega
      have hlen := length_filter_ne l u
      simp only [List.length_append, List.length_singleton]
      omega
  · have h1 : toggleLikes l u = l ++ [u] := by simp [toggleLikes, hc]
    have hself : l.filter (fun x => x != u) = l := List.filter_eq_self.mpr (by
      intro a ha
      simp only [bne_iff_ne, ne_eq, decide_eq_true_eq]
      rintro rfl
      exact hc ha)
    have h2 : toggleLikes (toggleLikes l u) u = l := by
      rw [h1]
      simp [toggleLikes, List.filter_append, hself]
    rw [h2]
    exact ⟨fun x => Iff.rfl, rfl⟩

/-- After one toggle the caller's membership is flipped. -/
theorem toggleLikes_contains (l : List Id) (u : Id) :
    (toggleLikes l u).contains u = !(l.contains u) := by
  by_cases hc : u ∈ l
  · have h1 : toggleLikes l u = l.filter (fun x => x != u) := by
      simp [toggleLikes, hc]
    have hfil : u ∉ l.filter (fun x => x != u) := by
      simp [List.mem_filter]
    rw [h1]
    simp [hc, hfil]
  · have h1 : toggleLikes l u = l ++ [u] := by simp [toggleLikes, hc]
    rw [h1]
    simp [hc]

/-- The post pre-save hook never touches `likes`. -/
theorem postSaveHook_likes (tm : Bool) (now : Nat) (p : Post) :
    (postSaveHook tm now p).likes = p.likes := by
  unfold postSaveHook
  dsimp only
  split <;> split <;> split <;> rfl

/-- The post pre-save hook never touches `id`. -/
theorem postSaveHook_id (tm : Bool) (now : Nat) (p : Post) :
    (postSaveHook tm now p).id = p.id := by
  unfold postSaveHook
  dsimp only
  split <;> split <;> split <;> rfl

/-- The comment pre-save hook never touches `likes`. -/
theorem commentSaveHook_likes (cm : Bool) (now : Nat) (c : Comment) :
    (commentSaveHook cm now c).likes = c.likes := by
  unfold commentSaveHook
  split <;> rfl

/-- The comment pre-save hook never touches `id`. -/
theorem commentSaveHook_id (cm : Bool) (now : Nat) (c : Comment) :
    (commentSaveHook cm now c).id = c.id := by
  unfold commentSaveHook
  split <;> rfl

/-- The comment pre-save hook never touches `status`. -/
theorem commentSaveHook_status (cm : Bool) (now : Nat) (c : Comment) :
    (commentSaveHook cm now c).status = c.status := by
  unfold commentSaveHook
  split <;> rfl

/-! ## C1: ownership / role authorization for post update and delete -/

/-- C1: for every authenticated caller and every existing post, the
update handler passes its authorization check (never answers 403) iff the
caller is the post's author, an admin, or an editor; the delete handler
passes iff the caller is the author or an admin; in particular an editor
who is not the author is denied delete with 403. -/
theorem postOwnership_authorization (db : DB) (u : UserRec) (pid : Id)
    (b : PostUpdateBody) (p : Post) (h : findPost db pid = some p) :
    ((updatePost db u pid b).fst.code ≠ 403 ↔
      (p.author = u.id ∨ u.role = .admin ∨ u.role = .editor)) ∧
    ((deletePost db u pid).fst.code ≠ 403 ↔
      (p.author = u.id ∨ u.role = .admin)) ∧
    (u.role = .editor → p.author ≠ u.id → (deletePost db u pid).fst.code = 403) := by
  unfold updatePost deletePost
  rw [h]
  dsimp only
  refine ⟨?_, ?_, ?_⟩
  · by_cases hauth : p.author ≠ u.id ∧ u.role ≠ .admin ∧ u.role ≠ .editor
    · rw [if_pos hauth]
      simp only [HResult.code]
      constructor
      · intro hne; exact absurd rfl hne
      · intro hd _
        rcases hauth with ⟨h1, h2, h3⟩
        rcases hd with hd | hd | hd
        · exact h1 hd
        · exact h2 hd
        · exact h3 hd
    · rw [if_neg hauth]
      push_neg at hauth
      constructor
      · intro _
        by_cases h1 : p.author = u.id
        · exact Or.inl h1
        · by_cases h2 : u.role = .admin
          · exact Or.inr (Or.inl h2)
          · exact Or.inr (Or.inr (hauth h1 h2))
      · intro _
        by_cases h2 : b.category.isSome ∧ (findCategory db (b.category.getD 0)).isNone
        · rw [if_pos h2]; simp [HResult.code]
        · rw [if_neg h2]
          by_cases h3 : (b.tags.getD []) ≠ [] ∧
              (db.tags.filter (fun t => (b.tags.getD []).contains t.id)).length
                ≠ (b.tags.getD []).length
          · rw [if_pos h3]; simp [HResult.code]
          · rw [if_neg h3]; simp [HResult.code]
  · by_cases hauth : p.author ≠ u.id ∧ u.role ≠ .admin
    · rw [if_pos hauth]
      simp only [HResult.code]
      constructor
      · intro hne; exact absurd rfl hne
      · intro hd _
        rcases hauth with ⟨h1, h2⟩
        rcases hd with hd | hd
        · exact h1 hd
        · exact h2 hd
    · rw [if_neg hauth]
      push_neg at hauth
      constructor
      · intro _
        by_cases h1 : p.author = u.id
        · exact Or.inl h1
        · exact Or.inr (by simpa using hauth h1)
      · intro _
        simp [HResult.code]
  · intro hrole hown
    rw [if_pos ⟨hown, by simp [hrole]⟩]
    rfl

/-- A draft post authored by user 10, for concrete evaluation. -/
def c1Post : Post :=
  { id := 1, title := "t", slug := "t", content := "c", author := 10,
    category := 5, tags := [], status := .draft, publishedAt := none,
    views := 0, likes := [], readTime := 1, isActive := true }

/-- A store holding only `c1Post`. -/
def c1Db : DB := { posts := [c1Post], comments := [], categories := [], tags := [] }

/-- A plain-role caller who authored `c1Post`. -/
def c1User : UserRec := { id := 10, role := .user }

/-- C1 witness: the authorization characterization, evaluated on a
one-post store with the post's own author calling. -/
theorem postOwnership_authorization_witness :
    findPost c1Db 1 = some c1Post ∧
    (((updatePost c1Db c1User 1 {}).fst.code ≠ 403 ↔
        (c1Post.author = c1User.id ∨ c1User.role = .admin ∨ c1User.role = .editor)) ∧
      ((deletePost c1Db c1User 1).fst.code ≠ 403 ↔
        (c1Post.author = c1User.id ∨ c1User.role = .admin)) ∧
      (c1User.role = .editor → c1Post.author ≠ c1User.id →
        (deletePost c1Db c1User 1).fst.code = 403)) :=
  ⟨rfl, postOwnership_authorization c1Db c1User 1 {} c1Post rfl⟩

/-! ## C7: invalid moderation target is rejected before any write -/

/-- C7: a moderation request whose target status lies outside
{"approved", "rejected"} (e.g. "spam") answers 400 and leaves the store
untouched — the guard runs before the comment is even loaded. -/
theorem moderateComment_invalid_status (db : DB) (cid : Id) (s : String)
    (now : Nat) (h1 : s ≠ "approved") (h2 : s ≠ "rejected") :
    moderateComment db cid s now = (.err 400, db) := by
  unfold moderateComment
  rw [if_pos ⟨h1, h2⟩]

/-- An approved comment, for concrete evaluation. -/
def c7Comment : Comment :=
  { id := 1, content := "hi", author := 2, post := 3, parentComment := none,
    replies := [], likes := [], status := .approved, isEdited := false,
    editedAt := none, isActive := true }

/-- A store holding only `c7Comment`. -/
def c7Db : DB := { posts := [], comments := [c7Comment], categories := [], tags := [] }

/-- C7 witness: moderating with status "spam" on a store holding an
approved comment answers 400 and changes nothing. -/
theorem moderateComment_invalid_status_witness :
    "spam" ≠ "approved" ∧ "spam" ≠ "rejected" ∧
    moderateComment c7Db 1 "spam" 0 = (.err 400, c7Db) :=
  ⟨by decide, by decide,
    moderateComment_invalid_status c7Db 1 "spam" 0 (by decide) (by decide)⟩

/-! ## C6: usage-count guard on Category / Tag delete -/

/-- C6: for an existing category and an existing tag, delete is rejected
with a 400 conflict response (store untouched) iff the referencing-post
count is positive, and accepted (record removed) iff that count is
zero. -/
theorem refcountGuard_delete (db : DB) (cid tid : Id) (cat : Category)
    (tg : Tag) (hc : findCategory db cid = some cat)
    (ht : findTag db tid = some tg) :
    (((deleteCategory db cid).fst.code = 400 ∧ (deleteCategory db cid).snd = db) ↔
      0 < (db.posts.filter (fun p => p.category == cat.id)).length) ∧
    (((deleteCategory db cid).fst.code = 200 ∧
        (deleteCategory db cid).snd.categories
          = db.categories.eraseP (fun c => c.id == cid)) ↔
      (db.posts.filter (fun p => p.category == cat.id)).length = 0) ∧
    (((deleteTag db tid).fst.code = 400 ∧ (deleteTag db tid).snd = db) ↔
      0 < (db.posts.filter (fun p => p.tags.contains tg.id)).length) ∧
    (((deleteTag db tid).fst.code = 200 ∧
        (deleteTag db tid).snd.tags = db.tags.eraseP (fun t => t.id == tid)) ↔
      (db.posts.filter (fun p => p.tags.contains tg.id)).length = 0) := by
  have hcatEq : deleteCategory db cid =
      (if (db.posts.filter (fun p => p.category == cat.id)).length > 0 then
        ((.err 400 : HResult Unit), db)
      else
        (.ok 200 (),
          { db with categories := db.categories.eraseP (fun c => c.id == cid) })) := by
    unfold deleteCategory
    rw [hc]
  have htagEq : deleteTag db tid =
      (if (db.posts.filter (fun p => p.tags.contains tg.id)).length > 0 then
        ((.err 400 : HResult Unit), db)
      else
        (.ok 200 (), { db with tags := db.tags.eraseP (fun t => t.id == tid) })) := by
    unfold deleteTag
    rw [ht]
  refine ⟨?_, ?_, ?_, ?_⟩
  · rw [hcatEq]
    by_cases hp : 0 < (db.posts.filter (fun p => p.category == cat.id)).length
    · rw [if_pos hp]
      dsimp only
      simp only [HResult.code]
      exact ⟨fun _ => hp, fun _ => by simp⟩
    · rw [if_neg hp]
      dsimp only
      simp only [HResult.code]
      constructor
      · rintro ⟨h200, -⟩
        omega
      · intro h
        exact absurd h hp
  · rw [hcatEq]
    by_cases hp : 0 < (db.posts.filter (fun p => p.category == cat.id)).length
    · rw [if_pos hp]
      dsimp only
      simp only [HResult.code]
      constructor
      · rintro ⟨h400, -⟩
        omega
      · intro h0
        exact absurd h0 (by omega)
    · rw [if_neg hp]
      dsimp only
      simp only [HResult.code]
      exact ⟨fun _ => by omega, fun _ => by simp⟩
  · rw [htagEq]
    by_cases hp : 0 < (db.posts.filter (fun p => p.tags.contains tg.id)).length
    · rw [if_pos hp]
      dsimp only
      simp only [HResult.code]
      exact ⟨fun _ => hp, fun _ => by simp⟩
    · rw [if_neg hp]
      dsimp only
      simp only [HResult.code]
      constructor
      · rintro ⟨h200, -⟩
        omega
      · intro h
        exact absurd h hp
  · rw [htagEq]
    by_cases hp : 0 < (db.posts.filter (fun p => p.tags.contains tg.id)).length
    · rw [if_pos hp]
      dsimp only
      simp only [HResult.code]
      constructor
      · rintro ⟨h400, -⟩
        omega
      · intro h0
        exact absurd h0 (by omega)
    · rw [if_neg hp]
      dsimp only
      simp only [HResult.code]
      exact ⟨fun _ => by omega, fun _ => by simp⟩

/-- A category referenced by one post. -/
def c6Cat : Category := { id := 1, name := "tech", isActive := true }

/-- A tag referenced by no post. -/
def c6Tag : Tag := { id := 2, name := "lean", isActive := true }

/-- A published post in category 1 with no tags. -/
def c6Post : Post :=
  { id := 7, title := "t", slug := "t", content := "c", author := 10,
    category := 1, tags := [], status := .published, publishedAt := some 5,
    views := 0, likes := [], readTime := 1, isActive := true }

/-- A store where category 1 is in use and tag 2 is unused. -/
def c6Db : DB :=
  { posts := [c6Post], comments := [], categories := [c6Cat], tags := [c6Tag] }

/-- C6 witness: on `c6Db` the in-use category delete is a 400 no-op and
the unused tag delete removes the tag with a 200. -/
theorem refcountGuard_delete_witness :
    findCategory c6Db 1 = some c6Cat ∧ findTag c6Db 2 = some c6Tag ∧
    ((((deleteCategory c6Db 1).fst.code = 400 ∧ (deleteCategory c6Db 1).snd = c6Db) ↔
        0 < (c6Db.posts.filter (fun p => p.category == c6Cat.id)).length) ∧
      (((deleteCategory c6Db 1).fst.code = 200 ∧
          (deleteCategory c6Db 1).snd.categories
            = c6Db.categories.eraseP (fun c => c.id == 1)) ↔
        (c6Db.posts.filter (fun p => p.category == c6Cat.id)).length = 0) ∧
      (((deleteTag c6Db 2).fst.code = 400 ∧ (deleteTag c6Db 2).snd = c6Db) ↔
        0 < (c6Db.posts.filter (fun p => p.tags.contains c6Tag.id)).length) ∧
      (((deleteTag c6Db 2).fst.code = 200 ∧
          (deleteTag c6Db 2).snd.tags = c6Db.tags.eraseP (fun t => t.id == 2)) ↔
        (c6Db.posts.filter (fun p => p.tags.contains c6Tag.id)).length = 0)) :=
  ⟨rfl, rfl, refcountGuard_delete c6Db 1 2 c6Cat c6Tag rfl rfl⟩

/-! ## C9: comment creation requires a published, active post -/

/-- C9: comment creation succeeds only when the target post exists with
status published and isActive true; when every post carrying the id fails
that visibility condition, the request answers 404 and the store is
unchanged. -/
theorem createComment_requires_published (db : DB) (u : UserRec)
    (postId : Id) (b : CreateCommentBody) (newId : Id) :
    ((createComment db u postId b newId).fst.code = 201 →
      ∃ p ∈ db.posts, p.id = postId ∧ p.status = .published ∧ p.isActive = true) ∧
    ((∀ p ∈ db.posts, p.id = postId → ¬(p.status = .published ∧ p.isActive = true)) →
      createComment db u postId b newId = (.err 404, db)) := by
  constructor
  · intro h201
    cases hpost : db.posts.find?
        (fun p => p.id == postId && p.status == .published && p.isActive) with
    | none =>
      exfalso
      have hres : createComment db u postId b newId = (.err 404, db) := by
        unfold createComment
        rw [hpost]
        rfl
      rw [hres] at h201
      simp [HResult.code] at h201
    | some p =>
      have hprop := List.find?_some hpost
      have hmem := List.mem_of_find?_eq_some hpost
      simp only [Bool.and_eq_true, beq_iff_eq] at hprop
      obtain ⟨⟨h1, h2⟩, h3⟩ := hprop
      exact ⟨p, hmem, h1, h2, h3⟩
  · intro hno
    cases hpost : db.posts.find?
        (fun p => p.id == postId && p.status == .published && p.isActive) with
    | some p =>
      exfalso
      have hprop := List.find?_some hpost
      have hmem := List.mem_of_find?_eq_some hpost
      simp only [Bool.and_eq_true, beq_iff_eq] at hprop
      obtain ⟨⟨h1, h2⟩, h3⟩ := hprop
      exact hno p hmem h1 ⟨h2, h3⟩
    | none =>
      unfold createComment
      rw [hpost]
      rfl

/-- A draft (hence invisible) post authored by user 3. -/
def c9Post : Post :=
  { id := 4, title := "t", slug := "t", content := "c", author := 3,
    category := 1, tags := [], status := .draft, publishedAt := none,
    views := 0, likes := [], readTime := 1, isActive := true }

/-- A store holding only the draft `c9Post`. -/
def c9Db : DB := { posts := [c9Post], comments := [], categories := [], tags := [] }

/-- A plain-role caller for the comment-creation witnesses. -/
def c9User : UserRec := { id := 8, role := .user }

/-- C9 witness: the published-post gate evaluated on a store whose only
post is a draft. -/
theorem createComment_requires_published_witness :
    ((createComment c9Db c9User 4 { content := "hi" } 1).fst.code = 201 →
      ∃ p ∈ c9Db.posts, p.id = 4 ∧ p.status = .published ∧ p.isActive = true) ∧
    ((∀ p ∈ c9Db.posts, p.id = 4 → ¬(p.status = .published ∧ p.isActive = true)) →
      createComment c9Db c9User 4 { content := "hi" } 1 = (.err 404, c9Db)) :=
  createComment_requires_published c9Db c9User 4 { content := "hi" } 1

/-! ## C2: parent-comment referential integrity on creation -/

/-- C2: a comment-creation request supplying a parentComment succeeds only
if a comment with that id exists on the same post; when no stored comment
carries that id on that post, the request answers an error (400, or 404
when the post gate already failed) and the store is unchanged. -/
theorem createComment_parent_integrity (db : DB) (u : UserRec)
    (postId pc : Id) (b : CreateCommentBody) (newId : Id)
    (hb : b.parentComment = some pc) :
    ((createComment db u postId b newId).fst.code = 201 →
      ∃ c ∈ db.comments, c.id = pc ∧ c.post = postId) ∧
    ((∀ c ∈ db.comments, c.id = pc → c.post ≠ postId) →
      ((createComment db u postId b newId).fst.code = 400 ∨
        (createComment db u postId b newId).fst.code = 404) ∧
      (createComment db u postId b newId).snd = db) := by
  constructor
  · intro h201
    cases hpost : db.posts.find?
        (fun p => p.id == postId && p.status == .published && p.isActive) with
    | none =>
      exfalso
      have hres : createComment db u postId b newId = (.err 404, db) := by
        unfold createComment
        rw [hpost]
        rfl
      rw [hres] at h201
      simp [HResult.code] at h201
    | some p =>
      cases hcf : db.comments.find?
          (fun q => q.id == pc && q.post == postId && q.isActive) with
      | none =>
        exfalso
        have hres : createComment db u postId b newId = (.err 400, db) := by
          unfold createComment
          rw [hpost, hb]
          dsimp only
          rw [hcf]
          rfl
        rw [hres] at h201
        simp [HResult.code] at h201
      | some c =>
        have hprop := List.find?_some hcf
        have hmem := List.mem_of_find?_eq_some hcf
        simp only [Bool.and_eq_true, beq_iff_eq] at hprop
        obtain ⟨⟨h1, h2⟩, h3⟩ := hprop
        exact ⟨c, hmem, h1, h2⟩
  · intro hno
    have hcfnone : db.comments.find?
        (fun q => q.id == pc && q.post == postId && q.isActive) = none := by
      cases hcf : db.comments.find?
          (fun q => q.id == pc && q.post == postId && q.isActive) with
      | none => rfl
      | some c =>
        exfalso
        have hprop := List.find?_some hcf
        have hmem := List.mem_of_find?_eq_some hcf
        simp only [Bool.and_eq_true, beq_iff_eq] at hprop
        obtain ⟨⟨h1, h2⟩, h3⟩ := hprop
        exact hno c hmem h1 h2
    cases hpost : db.posts.find?
        (fun p => p.id == postId && p.status == .published && p.isActive) with
    | none =>
      have hres : createComment db u postId b newId = (.err 404, db) := by
        unfold createComment
        rw [hpost]
        rfl
      rw [hres]
      exact ⟨Or.inr rfl, rfl⟩
    | some p =>
      have hres : createComment db u postId b newId = (.err 400, db) := by
        unfold createComment
        rw [hpost, hb]
        dsimp only
        rw [hcfnone]
        rfl
      rw [hres]
      exact ⟨Or.inl rfl, rfl⟩

/-- A published post, target of the C2 witness. -/
def c2Post : Post :=
  { id := 4, title := "t", slug := "t", content := "c", author := 3,
    category := 1, tags := [], status := .published, publishedAt := some 1,
    views := 0, likes := [], readTime := 1, isActive := true }

/-- A comment that lives on a different post (post 9, not post 4). -/
def c2Comment : Comment :=
  { id := 6, content := "other", author := 3, post := 9, parentComment := none,
    replies := [], likes := [], status := .approved, isEdited := false,
    editedAt := none, isActive := true }

/-- A store where post 4 is published and comment 6 belongs to post 9. -/
def c2Db : DB :=
  { posts := [c2Post], comments := [c2Comment], categories := [], tags := [] }

/-- The C2 witness request body: a reply to the cross-post comment 6. -/
def c2Body : CreateCommentBody := { content := "hi", parentComment := some 6 }

/-- C2 witness: the parent-integrity characterization evaluated on a
store whose only candidate parent belongs to a different post. -/
theorem createComment_parent_integrity_witness :
    c2Body.parentComment = some 6 ∧
    (((createComment c2Db c9User 4 c2Body 7).fst.code = 201 →
        ∃ c ∈ c2Db.comments, c.id = 6 ∧ c.post = 4) ∧
      ((∀ c ∈ c2Db.comments, c.id = 6 → c.post ≠ 4) →
        ((createComment c2Db c9User 4 c2Body 7).fst.code = 400 ∨
          (createComment c2Db c9User 4 c2Body 7).fst.code = 404) ∧
        (createComment c2Db c9User 4 c2Body 7).snd = c2Db)) :=
  ⟨rfl, createComment_parent_integrity c2Db c9User 4 6 c2Body 7 rfl⟩

/-! ## C10: frame condition of update-comment -/

/-- C10: update-comment can change at most `content` and `status`: every
comment stored after the call agrees with a pre-state comment of the same
id on author, post, parentComment, replies, likes and isActive. -/
theorem updateComment_frame (db : DB) (u : UserRec) (cid : Id)
    (b : UpdateCommentBody) :
    ∀ c' ∈ (updateComment db u cid b).snd.comments, ∃ c0 ∈ db.comments,
      c'.id = c0.id ∧ c'.author = c0.author ∧ c'.post = c0.post ∧
      c'.parentComment = c0.parentComment ∧ c'.replies = c0.replies ∧
      c'.likes = c0.likes ∧ c'.isActive = c0.isActive := by
  intro c' hc'
  unfold updateComment at hc'
  cases hfc : findComment db cid with
  | none =>
    rw [hfc] at hc'
    exact ⟨c', hc', rfl, rfl, rfl, rfl, rfl, rfl, rfl⟩
  | some c =>
    rw [hfc] at hc'
    dsimp only at hc'
    by_cases hauth : c.author ≠ u.id ∧ u.role ≠ .admin ∧ u.role ≠ .editor
    · rw [if_pos hauth] at hc'
      exact ⟨c', hc', rfl, rfl, rfl, rfl, rfl, rfl, rfl⟩
    · rw [if_neg hauth] at hc'
      dsimp only at hc'
      rcases List.mem_map.mp hc' with ⟨q, hq, rfl⟩
      by_cases hqid : (q.id == cid) = true
      · rw [if_pos hqid]
        exact ⟨c, List.mem_of_find?_eq_some hfc, rfl, rfl, rfl, rfl, rfl, rfl, rfl⟩
      · rw [if_neg hqid]
        exact ⟨q, hq, rfl, rfl, rfl, rfl, rfl, rfl, rfl⟩

/-- A comment with a nonempty reply and like set, for the frame witness. -/
def c10Comment : Comment :=
  { id := 1, content := "old", author := 2, post := 3, parentComment := none,
    replies := [4], likes := [5], status := .approved, isEdited := false,
    editedAt := none, isActive := true }

/-- A store holding only `c10Comment`. -/
def c10Db : DB := { posts := [], comments := [c10Comment], categories := [], tags := [] }

/-- An admin caller for the frame witness. -/
def c10Admin : UserRec := { id := 9, role := .admin }

/-- The frame-witness body: new content plus a status change. -/
def c10Body : UpdateCommentBody := { content := "new", status := some .rejected }

/-- The stored comment after the frame-witness update. -/
def c10After : Comment := { c10Comment with content := "new", status := .rejected }

/-- C10 witness: the updated comment in the post-state store agrees with
the original on every frame field. -/
theorem updateComment_frame_witness :
    ∃ c0 ∈ c10Db.comments,
      c10After.id = c0.id ∧ c10After.author = c0.author ∧
      c10After.post = c0.post ∧ c10After.parentComment = c0.parentComment ∧
      c10After.replies = c0.replies ∧ c10After.likes = c0.likes ∧
      c10After.isActive = c0.isActive :=
  updateComment_frame c10Db c10Admin 1 c10Body c10After (by decide)

/-! ## C3: is `pending` re-enterable after creation? -/

/-- An approved comment targeted by the C3 counterexample. -/
def c3Comment : Comment :=
  { id := 1, content := "c", author := 2, post := 3, parentComment := none,
    replies := [], likes := [], status := .approved, isEdited := false,
    editedAt := none, isActive := true }

/-- A store holding only the approved `c3Comment`. -/
def c3Db : DB := { posts := [], comments := [c3Comment], categories := [], tags := [] }

/-- An admin caller for the C3 counterexample. -/
def c3Admin : UserRec := { id := 9, role := .admin }

/-- C3 counterexample: comment 1 is approved (has left pending), yet an
admin update-comment call carrying status pending stores it as pending
again — pending IS re-enterable through update-comment, because that
route only validates `content` and the schema enum admits "pending". -/
theorem updateComment_reenters_pending_counterexample :
    c3Comment.status ≠ .pending ∧
    (findComment
        (updateComment c3Db c3Admin 1 { content := "c", status := some .pending }).snd
        1).map Comment.status = some .pending := by
  decide

/-- C3 amended: the moderate-comment operation never moves a comment to
pending (any comment pending afterwards was already pending), and comment
creation assigns pending at most to the newly created comment; only
update-comment (by an admin/editor supplying status pending) re-enters
pending, as the counterexample shows. -/
theorem pending_not_reenterable_amended :
    (∀ (db : DB) (cid : Id) (s : String) (now : Nat),
      ∀ c' ∈ (moderateComment db cid s now).snd.comments, c'.status = .pending →
        ∃ c ∈ db.comments, c.id = c'.id ∧ c.status = .pending) ∧
    (∀ (db : DB) (u : UserRec) (postId : Id) (b : CreateCommentBody) (newId : Id),
      ∀ c' ∈ (createComment db u postId b newId).snd.comments, c'.status = .pending →
        c'.id = newId ∨ ∃ c ∈ db.comments, c.id = c'.id ∧ c.status = .pending) := by
  constructor
  · intro db cid s now c' hc' hpend
    unfold moderateComment at hc'
    by_cases hs : s ≠ "approved" ∧ s ≠ "rejected"
    · rw [if_pos hs] at hc'
      exact ⟨c', hc', rfl, hpend⟩
    · rw [if_neg hs] at hc'
      cases hfc : findComment db cid with
      | none =>
        rw [hfc] at hc'
        exact ⟨c', hc', rfl, hpend⟩
      | some c =>
        rw [hfc] at hc'
        dsimp only at hc'
        rcases List.mem_map.mp hc' with ⟨q, hq, rfl⟩
        by_cases hqid : (q.id == cid) = true
        · rw [if_pos hqid] at hpend
          rw [commentSaveHook_status] at hpend
          exfalso
          by_cases hap : (s == "approved") = true
          · rw [if_pos hap] at hpend
            simp at hpend
          · rw [if_neg hap] at hpend
            simp at hpend
        · rw [if_neg hqid] at hpend ⊢
          exact ⟨q, hq, rfl, hpend⟩
  · intro db u postId b newId c' hc' hpend
    unfold createComment at hc'
    cases hpost : db.posts.find?
        (fun p => p.id == postId && p.status == .published && p.isActive) with
    | none =>
      rw [hpost] at hc'
      exact Or.inr ⟨c', hc', rfl, hpend⟩
    | some p =>
      rw [hpost] at hc'
      dsimp only at hc'
      cases hb : b.parentComment with
      | none =>
        rw [hb] at hc'
        dsimp only at hc'
        rcases List.mem_append.mp hc' with h | h
        · exact Or.inr ⟨c', h, rfl, hpend⟩
        · rcases List.mem_singleton.mp h with rfl
          exact Or.inl rfl
      | some pc =>
        rw [hb] at hc'
        dsimp only at hc'
        cases hcf : db.comments.find?
            (fun q => q.id == pc && q.post == postId && q.isActive) with
        | none =>
          rw [hcf] at hc'
          exact Or.inr ⟨c', hc', rfl, hpend⟩
        | some cc =>
          rw [hcf] at hc'
          rcases List.mem_append.mp hc' with h | h
          · rcases List.mem_map.mp h with ⟨q, hq, rfl⟩
            by_cases hqid : (q.id == pc) = true
            · rw [if_pos hqid] at hpend ⊢
              exact Or.inr ⟨q, hq, rfl, hpend⟩
            · rw [if_neg hqid] at hpend ⊢
              exact Or.inr ⟨q, hq, rfl, hpend⟩
          · rcases List.mem_singleton.mp h with rfl
            exact Or.inl rfl

/-- A pending comment, for the amended-C3 witness. -/
def c3PendComment : Comment :=
  { id := 5, content := "p", author := 2, post := 3, parentComment := none,
    replies := [], likes := [], status := .pending, isEdited := false,
    editedAt := none, isActive := true }

/-- A store holding only `c3PendComment`. -/
def c3PendDb : DB :=
  { posts := [], comments := [c3PendComment], categories := [], tags := [] }

/-- C3 amended witness: after a (rejected, hence write-free) moderation
call, the still-pending comment 5 traces back to a pending pre-state
comment. -/
theorem pending_not_reenterable_amended_witness :
    ∃ c ∈ c3PendDb.comments, c.id = c3PendComment.id ∧ c.status = .pending :=
  pending_not_reenterable_amended.1 c3PendDb 5 "spam" 0 c3PendComment
    (by decide) (by decide)

/-! ## C4: publishedAt stamping on publish -/

/-- A draft post with no publishedAt, for the C4 evaluation. -/
def c4Post : Post :=
  { id := 1, title := "hello world", slug := "hello-world-0", content := "body",
    author := 2, category := 3, tags := [], status := .draft,
    publishedAt := none, views := 0, likes := [], readTime := 1, isActive := true }

/-- A store holding only the draft `c4Post`. -/
def c4Db : DB := { posts := [c4Post], comments := [], categories := [], tags := [] }

/-- The author of `c4Post`, a plain-role caller. -/
def c4Author : UserRec := { id := 2, role := .user }

/-- C4 fails on the code: publishing a draft through PUT /api/posts/:id
succeeds (200) and stores status published with publishedAt still unset,
because `findByIdAndUpdate` skips the pre-save hook; the hook itself (run
by create/save) would have stamped it, as the last conjunct shows. -/
theorem updatePost_publish_skips_publishedAt :
    (updatePost c4Db c4Author 1 { status := some .published }).fst.code = 200 ∧
    (findPost (updatePost c4Db c4Author 1 { status := some .published }).snd 1).map
        (fun p => (p.status, p.publishedAt)) = some (.published, none) ∧
    (postSaveHook false 7 { c4Post with status := .published }).publishedAt = some 7 := by
  decide

/-! ## C5: edited flag on content updates -/

/-- An unedited approved comment, for the C5 evaluation. -/
def c5Comment : Comment :=
  { id := 1, content := "old", author := 2, post := 3, parentComment := none,
    replies := [], likes := [], status := .approved, isEdited := false,
    editedAt := none, isActive := true }

/-- A store holding only `c5Comment`. -/
def c5Db : DB := { posts := [], comments := [c5Comment], categories := [], tags := [] }

/-- The author of `c5Comment`, a plain-role caller. -/
def c5Owner : UserRec := { id := 2, role := .user }

/-- C5 fails on the code: the owner's update-comment call changes the
content (200) yet the stored comment keeps isEdited false and no
editedAt, because `findByIdAndUpdate` skips the pre-save hook; the hook
itself (run on a content-modified save) would have stamped both, as the
last conjunct shows. -/
theorem updateComment_edit_skips_editedFlag :
    (updateComment c5Db c5Owner 1 { content := "new" }).fst.code = 200 ∧
    (findComment (updateComment c5Db c5Owner 1 { content := "new" }).snd 1).map
        (fun c => (c.content, c.isEdited, c.editedAt))
      = some ("new", false, none) ∧
    ((commentSaveHook true 7 { c5Comment with content := "new" }).isEdited = true ∧
      (commentSaveHook true 7 { c5Comment with content := "new" }).editedAt = some 7) := by
  decide

/-! ## C8: toggle-like is its own inverse -/

/-- Lookup `findPost` only returns a post carrying the looked-up id. -/
theorem findPost_some_id {db : DB} {i : Id} {p : Post}
    (h : findPost db i = some p) : p.id = i := by
  unfold findPost at h
  exact find?_some_id Post.id h

/-- Lookup `findComment` only returns a comment carrying the looked-up id. -/
theorem findComment_some_id {db : DB} {i : Id} {c : Comment}
    (h : findComment db i = some c) : c.id = i := by
  unfold findComment at h
  exact find?_some_id Comment.id h

/-- Writing a post back under its id commutes with `findPost`. -/
theorem findPost_after_set (db : DB) (pid : Id) (x : Post) (hx : x.id = pid) :
    findPost { db with posts := db.posts.map (fun q => if q.id == pid then x else q) } pid
      = (findPost db pid).map (fun _ => x) := by
  unfold findPost
  exact find?_map_set Post.id db.posts pid x hx

/-- Writing a comment back under its id commutes with `findComment`. -/
theorem findComment_after_set (db : DB) (cid : Id) (x : Comment) (hx : x.id = cid) :
    findComment { db with comments := db.comments.map (fun q => if q.id == cid then x else q) } cid
      = (findComment db cid).map (fun _ => x) := by
  unfold findComment
  exact find?_map_set Comment.id db.comments cid x hx

/-- Reduction of `toggleLikePost` on a found post. -/
theorem toggleLikePost_eq (db : DB) (u : UserRec) (pid : Id) (now : Nat)
    (p p' : Post) (hp : findPost db pid = some p)
    (hp' : p' = postSaveHook false now { p with likes := toggleLikes p.likes u.id }) :
    toggleLikePost db u pid now =
      (.ok 200 (p'.likes.length, !(p.likes.contains u.id)),
        { db with posts := db.posts.map (fun q => if q.id == pid then p' else q) }) := by
  subst hp'
  unfold toggleLikePost
  rw [hp]

/-- Reduction of `toggleLikeComment` on a found comment. -/
theorem toggleLikeComment_eq (db : DB) (u : UserRec) (cid : Id) (now : Nat)
    (c c' : Comment) (hc : findComment db cid = some c)
    (hc' : c' = commentSaveHook false now { c with likes := toggleLikes c.likes u.id }) :
    toggleLikeComment db u cid now =
      (.ok 200 (c'.likes.length, !(c.likes.contains u.id)),
        { db with comments := db.comments.map (fun q => if q.id == cid then c' else q) }) := by
  subst hc'
  unfold toggleLikeComment
  rw [hc]

/-- Two successive post like-toggles by the same caller restore the
original membership set, length and report the original state. -/
theorem toggleLikePost_twice (db : DB) (u : UserRec) (pid : Id) (n1 n2 : Nat)
    (p : Post) (hp : findPost db pid = some p) (hcnt : p.likes.count u.id ≤ 1) :
    (toggleLikePost (toggleLikePost db u pid n1).snd u pid n2).fst
      = .ok 200 (p.likes.length, p.likes.contains u.id) ∧
    ∃ q, findPost (toggleLikePost (toggleLikePost db u pid n1).snd u pid n2).snd pid
        = some q ∧ (∀ x, x ∈ q.likes ↔ x ∈ p.likes) ∧
      q.likes.length = p.likes.length := by
  have hpid : p.id = pid := findPost_some_id hp
  have h1 := toggleLikePost_eq db u pid n1 p _ hp rfl
  have hp1id : (postSaveHook false n1 { p with likes := toggleLikes p.likes u.id }).id
      = pid := by
    rw [postSaveHook_id]
    exact hpid
  have hp1likes : (postSaveHook false n1 { p with likes := toggleLikes p.likes u.id }).likes
      = toggleLikes p.likes u.id := by
    rw [postSaveHook_likes]
  have hfind1 : findPost (toggleLikePost db u pid n1).snd pid
      = some (postSaveHook false n1 { p with likes := toggleLikes p.likes u.id }) := by
    rw [h1]
    exact (findPost_after_set db pid _ hp1id).trans (by rw [hp]; rfl)
  have h2 := toggleLikePost_eq (toggleLikePost db u pid n1).snd u pid n2 _ _ hfind1 rfl
  have hq : (postSaveHook false n2
      { postSaveHook false n1 { p with likes := toggleLikes p.likes u.id } with
        likes := toggleLikes
          (postSaveHook false n1 { p with likes := toggleLikes p.likes u.id }).likes
          u.id }).likes
      = toggleLikes (toggleLikes p.likes u.id) u.id := by
    rw [postSaveHook_likes]
    show toggleLikes
      (postSaveHook false n1 { p with likes := toggleLikes p.likes u.id }).likes u.id = _
    rw [hp1likes]
  constructor
  · rw [h2]
    dsimp only
    have hB : (!((postSaveHook false n1
        { p with likes := toggleLikes p.likes u.id }).likes.contains u.id))
        = p.likes.contains u.id := by
      rw [hp1likes, toggleLikes_contains, Bool.not_not]
    rw [hq, hB, (toggleLikes_toggleLikes p.likes u.id hcnt).2]
  · have hp2id : (postSaveHook false n2
        { postSaveHook false n1 { p with likes := toggleLikes p.likes u.id } with
          likes := toggleLikes
            (postSaveHook false n1 { p with likes := toggleLikes p.likes u.id }).likes
            u.id }).id = pid := by
      rw [postSaveHook_id]
      exact hp1id
    have hfind2 : findPost (toggleLikePost (toggleLikePost db u pid n1).snd u pid n2).snd pid
        = some (postSaveHook false n2
            { postSaveHook false n1 { p with likes := toggleLikes p.likes u.id } with
              likes := toggleLikes
                (postSaveHook false n1 { p with likes := toggleLikes p.likes u.id }).likes
                u.id }) := by
      rw [h2]
      exact (findPost_after_set _ pid _ hp2id).trans (by rw [hfind1]; rfl)
    exact ⟨_, hfind2,
      by rw [hq]; exact (toggleLikes_toggleLikes p.likes u.id hcnt).1,
      by rw [hq]; exact (toggleLikes_toggleLikes p.likes u.id hcnt).2⟩

/-- Two successive comment like-toggles by the same caller restore the
original membership set, length and report the original state. -/
theorem toggleLikeComment_twice (db : DB) (u : UserRec) (cid : Id) (n1 n2 : Nat)
    (c : Comment) (hc : findComment db cid = some c)
    (hcnt : c.likes.count u.id ≤ 1) :
    (toggleLikeComment (toggleLikeComment db u cid n1).snd u cid n2).fst
      = .ok 200 (c.likes.length, c.likes.contains u.id) ∧
    ∃ q, findComment (toggleLikeComment (toggleLikeComment db u cid n1).snd u cid n2).snd cid
        = some q ∧ (∀ x, x ∈ q.likes ↔ x ∈ c.likes) ∧
      q.likes.length = c.likes.length := by
  have hcid : c.id = cid := findComment_some_id hc
  have h1 := toggleLikeComment_eq db u cid n1 c _ hc rfl
  have hc1id : (commentSaveHook false n1 { c with likes := toggleLikes c.likes u.id }).id
      = cid := by
    rw [commentSaveHook_id]
    exact hcid
  have hc1likes : (commentSaveHook false n1 { c with likes := toggleLikes c.likes u.id }).likes
      = toggleLikes c.likes u.id := by
    rw [commentSaveHook_likes]
  have hfind1 : findComment (toggleLikeComment db u cid n1).snd cid
      = some (commentSaveHook false n1 { c with likes := toggleLikes c.likes u.id }) := by
    rw [h1]
    exact (findComment_after_set db cid _ hc1id).trans (by rw [hc]; rfl)
  have h2 := toggleLikeComment_eq (toggleLikeComment db u cid n1).snd u cid n2 _ _ hfind1 rfl
  have hq : (commentSaveHook false n2
      { commentSaveHook false n1 { c with likes := toggleLikes c.likes u.id } with
        likes := toggleLikes
          (commentSaveHook false n1 { c with likes := toggleLikes c.likes u.id }).likes
          u.id }).likes
      = toggleLikes (toggleLikes c.likes u.id) u.id := by
    rw [commentSaveHook_likes]
    show toggleLikes
      (commentSaveHook false n1 { c with likes := toggleLikes c.likes u.id }).likes u.id = _
    rw [hc1likes]
  constructor
  · rw [h2]
    dsimp only
    have hB : (!((commentSaveHook false n1
        { c with likes := toggleLikes c.likes u.id }).likes.contains u.id))
        = c.likes.contains u.id := by
      rw [hc1likes, toggleLikes_contains, Bool.not_not]
    rw [hq, hB, (toggleLikes_toggleLikes c.likes u.id hcnt).2]
  · have hc2id : (commentSaveHook false n2
        { commentSaveHook false n1 { c with likes := toggleLikes c.likes u.id } with
          likes := toggleLikes
            (commentSaveHook false n1 { c with likes := toggleLikes c.likes u.id }).likes
            u.id }).id = cid := by
      rw [commentSaveHook_id]
      exact hc1id
    have hfind2 : findComment (toggleLikeComment (toggleLikeComment db u cid n1).snd u cid n2).snd cid
        = some (commentSaveHook false n2
            { commentSaveHook false n1 { c with likes := toggleLikes c.likes u.id } with
              likes := toggleLikes
                (commentSaveHook false n1 { c with likes := toggleLikes c.likes u.id }).likes
                u.id }) := by
      rw [h2]
      exact (findComment_after_set _ cid _ hc2id).trans (by rw [hfind1]; rfl)
    exact ⟨_, hfind2,
      by rw [hq]; exact (toggleLikes_toggleLikes c.likes u.id hcnt).1,
      by rw [hq]; exact (toggleLikes_toggleLikes c.likes u.id hcnt).2⟩

/-- C8: toggle-like is its own inverse on posts and on comments: with no
other intervening change, toggling twice reports the original like count
and the original membership state, and the stored likers set returns to
its original membership and size (in every reachable state the caller
appears at most once in the likers list). -/
theorem toggleLike_involution (db : DB) (u : UserRec) (pid cid : Id)
    (n1 n2 n3 n4 : Nat) (p : Post) (c : Comment)
    (hp : findPost db pid = some p) (hpcnt : p.likes.count u.id ≤ 1)
    (hc : findComment db cid = some c) (hccnt : c.likes.count u.id ≤ 1) :
    ((toggleLikePost (toggleLikePost db u pid n1).snd u pid n2).fst
        = .ok 200 (p.likes.length, p.likes.contains u.id) ∧
      ∃ q, findPost (toggleLikePost (toggleLikePost db u pid n1).snd u pid n2).snd pid
          = some q ∧ (∀ x, x ∈ q.likes ↔ x ∈ p.likes) ∧
        q.likes.length = p.likes.length) ∧
    ((toggleLikeComment (toggleLikeComment db u cid n3).snd u cid n4).fst
        = .ok 200 (c.likes.length, c.likes.contains u.id) ∧
      ∃ q, findComment (toggleLikeComment (toggleLikeComment db u cid n3).snd u cid n4).snd cid
          = some q ∧ (∀ x, x ∈ q.likes ↔ x ∈ c.likes) ∧
        q.likes.length = c.likes.length) :=
  ⟨toggleLikePost_twice db u pid n1 n2 p hp hpcnt,
    toggleLikeComment_twice db u cid n3 n4 c hc hccnt⟩

/-- A published post already liked by user 2 (once). -/
def c8Post : Post :=
  { id := 1, title := "t", slug := "t", content := "c", author := 3,
    category := 5, tags := [], status := .published, publishedAt := some 4,
    views := 0, likes := [2], readTime := 1, isActive := true }

/-- A comment not yet liked by user 2. -/
def c8Comment : Comment :=
  { id := 6, content := "hi", author := 3, post := 1, parentComment := none,
    replies := [], likes := [9], status := .approved, isEdited := false,
    editedAt := none, isActive := true }

/-- A store holding `c8Post` and `c8Comment`. -/
def c8Db : DB :=
  { posts := [c8Post], comments := [c8Comment], categories := [], tags := [] }

/-- The caller of the C8 witness, user 2. -/
def c8User : UserRec := { id := 2, role := .user }

/-- C8 witness: the double-toggle characterization evaluated on a store
where the caller already likes the post but not the comment. -/
theorem toggleLike_involution_witness :
    findPost c8Db 1 = some c8Post ∧ c8Post.likes.count 2 ≤ 1 ∧
    findComment c8Db 6 = some c8Comment ∧ c8Comment.likes.count 2 ≤ 1 ∧
    (((toggleLikePost (toggleLikePost c8Db c8User 1 11).snd c8User 1 12).fst
        = .ok 200 (c8Post.likes.length, c8Post.likes.contains c8User.id) ∧
      ∃ q, findPost (toggleLikePost (toggleLikePost c8Db c8User 1 11).snd c8User 1 12).snd 1
          = some q ∧ (∀ x, x ∈ q.likes ↔ x ∈ c8Post.likes) ∧
        q.likes.length = c8Post.likes.length) ∧
    ((toggleLikeComment (toggleLikeComment c8Db c8User 6 13).snd c8User 6 14).fst
        = .ok 200 (c8Comment.likes.length, c8Comment.likes.contains c8User.id) ∧
      ∃ q, findComment
            (toggleLikeComment (toggleLikeComment c8Db c8User 6 13).snd c8User 6 14).snd 6
          = some q ∧ (∀ x, x ∈ q.likes ↔ x ∈ c8Comment.likes) ∧
        q.likes.length = c8Comment.likes.length)) :=
  ⟨rfl, by decide, rfl, by decide,
    toggleLike_involution c8Db c8User 1 6 11 12 13 14 c8Post c8Comment
      rfl (by decide) rfl (by decide)⟩

end BlogApi
